import Mathlib

/-!
Verification development for the dual-camera market-research scripts
(`research_dual_camera_apps.py` and `detailed_feature_research.py`).

The Python code is shallowly embedded: Python dictionaries coming from JSON
are embedded as structures with `Option`-valued fields (`none` = key absent),
Python `str` as `String` (operating on the underlying `List Char`, matching
the code-point semantics of Python `str`), Python `int` as `ℤ`, Python
`float` ratings as `ℚ` (only order comparisons are performed on them), and
code that can raise an exception as `Option`-returning functions (`none` =
an uncaught exception at that point).

String primitives (`lower`, slicing, `in`, `int(...)`) are modelled on the
character list directly; `lower` uses the ASCII case mapping, and `int`
parsing accepts optional surrounding whitespace, an optional sign and a
digit run with single underscores between digits, which is the behaviour of
the Python builtin on the ASCII inputs relevant here.
-/

/-- Python `str.lower()` on one character (ASCII case mapping). -/
def pyCharLower (c : Char) : Char := Char.toLower c

/-- Python `str.lower()`. -/
def pyLower (s : String) : String := String.mk (s.data.map pyCharLower)

/-- Python `s[:n]` slicing of a string (by code points). -/
def pySlice (s : String) (n : ℕ) : String := String.mk (s.data.take n)

/-- Helper for Python `needle in hay`: prefix test on character lists. -/
def charListStarts : List Char → List Char → Bool
  | [], _ => true
  | _ :: _, [] => false
  | a :: as, b :: bs => a == b && charListStarts as bs

/-- Helper for Python `needle in hay`: infix test on character lists. -/
def charListInside : List Char → List Char → Bool
  | n, [] => charListStarts n []
  | n, h :: t => charListStarts n (h :: t) || charListInside n t

/-- Python `needle in hay` on strings (substring containment). -/
def strContains (hay needle : String) : Bool := charListInside needle.data hay.data

/-- Python `a < b` on strings: lexicographic comparison by code point. -/
def charListLt : List Char → List Char → Bool
  | [], [] => false
  | [], _ :: _ => true
  | _ :: _, [] => false
  | a :: as, b :: bs => if a < b then true else if b < a then false else charListLt as bs

/-- Python `a < b` on strings. -/
def pyStrLt (a b : String) : Bool := charListLt a.data b.data

/-- Helper for `int(...)`: digit run after the first digit, allowing single
underscores between digits. -/
def digitsTail : List Char → Bool
  | [] => true
  | c :: rest =>
    if c.isDigit then digitsTail rest
    else if c = '_' then
      match rest with
      | [] => false
      | d :: rest2 => d.isDigit && digitsTail rest2
    else false

/-- Helper for `int(...)`: a valid unsigned digit run (nonempty, single
underscores only between digits). -/
def digitsOk : List Char → Bool
  | [] => false
  | c :: rest => c.isDigit && digitsTail rest

/-- Numeric value of a digit run (underscores skipped). -/
def digitsVal (cs : List Char) : ℕ :=
  cs.foldl (fun n c => if c = '_' then n else 10 * n + (c.toNat - 48)) 0

/-- Strip leading and trailing whitespace (Python `int` ignores it). -/
def stripEnds (cs : List Char) : List Char :=
  ((cs.dropWhile Char.isWhitespace).reverse.dropWhile Char.isWhitespace).reverse

/-- Python `int(s)`: `none` models a raised `ValueError`. -/
def pyInt (s : String) : Option ℤ :=
  match stripEnds s.data with
  | '+' :: rest => if digitsOk rest then some ((digitsVal rest : ℕ) : ℤ) else none
  | '-' :: rest => if digitsOk rest then some (-((digitsVal rest : ℕ) : ℤ)) else none
  | rest => if digitsOk rest then some ((digitsVal rest : ℕ) : ℤ) else none

/-!
Review records (`detailed_feature_research.py`, `analyze_reviews`).

A raw review entry from the reviews feed is a JSON object whose fields
`content`, `title` and `im:rating` are, when present, objects that may carry
a string field `label`.  A field value of `none` means the key is absent
(`review.get(k, {})` yields `{}`), `some none` means the key maps to an
object without a `label` key, and `some (some s)` means the nested label is
the string `s`.  Other JSON shapes for these fields (non-object field
values, non-string labels) are outside this embedding.
-/

/-- Raw review entry consumed by `analyze_reviews` (field `im_rating` stands
for the JSON key `im:rating`, which is not a valid Lean name). -/
structure RawReview where
  content : Option (Option String)
  title : Option (Option String)
  im_rating : Option (Option String)
deriving DecidableEq

/-- Python `review.get(key, \x7b\x7d).get("label", dflt)`. -/
def labelOr (dflt : String) (field : Option (Option String)) : String :=
  match field with
  | none => dflt
  | some none => dflt
  | some (some s) => s

/-- Local variable `content` of the loop body of `analyze_reviews`
(line 35): lowercased content label, defaulting to the empty string. -/
def contentOf (r : RawReview) : String := pyLower (labelOr "" r.content)

/-- Local variable `title` of the loop body (line 36). -/
def titleOf (r : RawReview) : String := pyLower (labelOr "" r.title)

/-- Local variable `rating` of the loop body (line 37):
`int(review.get("im:rating", \x7b\x7d).get("label", "0"))`; `none` models the
`ValueError` raised by `int` on a non-integer label. -/
def ratingOf (r : RawReview) : Option ℤ := pyInt (labelOr "0" r.im_rating)

/-- Local variable `full_text` of the loop body (line 39):
`f"{title} {content}"`. -/
def fullTextOf (r : RawReview) : String := titleOf r ++ " " ++ contentOf r

/-- Keyword list of line 50 of `detailed_feature_research.py`. -/
def feature_keywords : List String :=
  ["wish", "need", "should", "add", "feature", "want", "would like", "missing"]

/-- Keyword list of line 59 of `detailed_feature_research.py`. -/
def positive_keywords : List String :=
  ["love", "great", "awesome", "best", "perfect", "amazing", "excellent"]

/-- Python `any(keyword in text for keyword in keywords)`. -/
def containsAny (text : String) (keywords : List String) : Bool :=
  keywords.any (fun k => strContains text k)

/-- Entry appended to the `complaints` list (lines 43 to 47). -/
structure CEntry where
  rating : ℤ
  title : String
  snippet : String
deriving DecidableEq

/-- Entry appended to the `features_requested` list (lines 52 to 55). -/
structure FEntry where
  rating : ℤ
  text : String
deriving DecidableEq

/-- Entry appended to the `positive_features` list (lines 61 to 64). -/
structure PEntry where
  rating : ℤ
  text : String
deriving DecidableEq

/-- Outcome of one iteration of the `analyze_reviews` loop for a single
review: the entry (if any) appended to each of the three buckets. -/
structure StepResult where
  complaint : Option CEntry
  featureReq : Option FEntry
  positive : Option PEntry
deriving DecidableEq

/-- One iteration of the `analyze_reviews` loop (lines 34 to 64); `none`
models an exception raised while processing this review (only the `int`
conversion of the rating label can raise here). -/
def analyzeStep (r : RawReview) : Option StepResult :=
  match ratingOf r with
  | none => none
  | some rating =>
    some
      { complaint :=
          if rating ≤ 3 then
            some { rating := rating, title := labelOr "" r.title,
                   snippet := pySlice (contentOf r) 200 }
          else none
        featureReq :=
          if containsAny (fullTextOf r) feature_keywords then
            some { rating := rating, text := pySlice (contentOf r) 200 }
          else none
        positive :=
          if 4 ≤ rating then
            if containsAny (fullTextOf r) positive_keywords then
              some { rating := rating, text := pySlice (contentOf r) 200 }
            else none
          else none }

/-- The function `analyze_reviews` (lines 28 to 66): classifies every review,
accumulating the three bucket lists in iteration order; `none` models an
exception raised on some review. -/
def analyze_reviews : List RawReview → Option (List CEntry × List FEntry × List PEntry)
  | [] => some ([], [], [])
  | r :: rest =>
    match analyzeStep r, analyze_reviews rest with
    | some s, some (cs, fs, ps) =>
      some (s.complaint.toList ++ cs, s.featureReq.toList ++ fs, s.positive.toList ++ ps)
    | _, _ => none


/-!
Competitor collection and ranking (`research_dual_camera_apps.py`, `main`).

An app object returned by the search API is embedded with the fields the
script reads; `none` means the key is absent.  `averageUserRating` is a
JSON number (embedded as `ℚ`; only order comparisons are performed on it).
-/

/-- A Python value that is either a number or a string: the type of the
`rating` field of a competitor record, which holds either the numeric
`averageUserRating` or the default string `N/A` (line 119). -/
inductive PyVal where
  | num (q : ℚ)
  | str (s : String)
deriving DecidableEq

/-- Raw app object from the search API (`results` element). -/
structure RawApp where
  trackId : Option ℤ
  trackName : Option String
  artistName : Option String
  formattedPrice : Option String
  averageUserRating : Option ℚ
  userRatingCount : Option ℤ
  version : Option String
  description : Option String
  genres : Option (List String)
deriving DecidableEq

/-- Competitor record built at lines 115 to 124. -/
structure Competitor where
  name : Option String
  developer : Option String
  price : String
  rating : PyVal
  rating_count : ℤ
  version : String
  description_snippet : String
  categories : List String
deriving DecidableEq

/-- The dictionary literal of lines 115 to 124: note that a missing
`averageUserRating` is stored as the string `N/A`, not as a number. -/
def buildCompetitor (a : RawApp) : Competitor :=
  { name := a.trackName
    developer := a.artistName
    price := a.formattedPrice.getD "N/A"
    rating := match a.averageUserRating with
      | some q => PyVal.num q
      | none => PyVal.str "N/A"
    rating_count := a.userRatingCount.getD 0
    version := a.version.getD "N/A"
    description_snippet := pySlice (a.description.getD "") 200
    categories := a.genres.getD [] }

/-- The collection loop of lines 107 to 127 over the raw results
accumulated across all queries (the `seen_apps` set threads through the
whole nested loop, so the per-query batches concatenate).  The guard
mirrors `if app_id and app_id not in seen_apps`: a missing `trackId` and
the falsy identifier `0` are both skipped. -/
def collectLoop (seen : List ℤ) : List RawApp → List Competitor
  | [] => []
  | a :: rest =>
    match a.trackId with
    | none => collectLoop seen rest
    | some i =>
      if i ≠ 0 ∧ i ∉ seen then buildCompetitor a :: collectLoop (i :: seen) rest
      else collectLoop seen rest

/-- Same loop as `collectLoop` but returning the surviving raw apps instead
of the built records; used to state which raw result each collected
competitor comes from. -/
def keptRaws (seen : List ℤ) : List RawApp → List RawApp
  | [] => []
  | a :: rest =>
    match a.trackId with
    | none => keptRaws seen rest
    | some i =>
      if i ≠ 0 ∧ i ∉ seen then a :: keptRaws (i :: seen) rest
      else keptRaws seen rest

/-- Sort key of line 132: `(x.get("rating", 0), x.get("rating_count", 0))`.
Both keys are always present in a record built by `buildCompetitor`, so the
`get` defaults cannot fire; the first component is the stored `rating`
value, which is a number or the string `N/A`. -/
def sortKeyOf (c : Competitor) : PyVal × ℤ := (c.rating, c.rating_count)

/-- Python `==` between two such values (`number == string` is `False`,
without error). -/
def pyEqV : PyVal → PyVal → Bool
  | .num a, .num b => a == b
  | .str a, .str b => a == b
  | _, _ => false

/-- Python `<` between two such values: `none` models the `TypeError`
raised when a number is compared with a string. -/
def pyLtV : PyVal → PyVal → Option Bool
  | .num a, .num b => some (decide (a < b))
  | .str a, .str b => some (pyStrLt a b)
  | _, _ => none

/-- Python `<` on the two-element sort-key tuples: the first components are
compared with `==` and, when different, with `<`; on equal first components
the integer second components decide. -/
def pyLtKey (p q : PyVal × ℤ) : Option Bool :=
  if pyEqV p.1 q.1 then some (decide (p.2 < q.2)) else pyLtV p.1 q.1

/-- Insertion of one element into an already sorted list, in the stable
descending order computed by `sorted(..., key=..., reverse=True)`: `a` is
placed before the first element it does not compare strictly below.  A
`none` comparison aborts the whole sort (Python raises `TypeError`). -/
def insertDesc (a : Competitor) : List Competitor → Option (List Competitor)
  | [] => some [a]
  | b :: t =>
    match pyLtKey (sortKeyOf a) (sortKeyOf b) with
    | none => none
    | some true => (insertDesc a t).map (fun l => b :: l)
    | some false => some (a :: b :: t)

/-- The call `sorted(competitors, key=..., reverse=True)` of lines 130 to
134, modelled as a stable insertion sort (extensionally equal to any stable
sort for a defined comparison); `none` models the `TypeError` raised when
an undefined comparison is reached, which happens exactly when the list
mixes numeric and string ratings. -/
def pySortDesc : List Competitor → Option (List Competitor)
  | [] => some []
  | a :: rest =>
    match pySortDesc rest with
    | none => none
    | some l => insertDesc a l

/-- Lines 130 to 134 in full: sort descending, then keep the first 10. -/
def finalCompetitors (cs : List Competitor) : Option (List Competitor) :=
  (pySortDesc cs).map (fun l => l.take 10)

/-- Whether the stored rating of a competitor is numeric. -/
def ratingIsNum (c : Competitor) : Bool :=
  match c.rating with
  | .num _ => true
  | .str _ => false

/-- Rating as a number, with the default 0 that the specification assigns
to absent ratings (used only on the specification side of the ranking
claims). -/
def ratingQ (c : Competitor) : ℚ :=
  match c.rating with
  | .num q => q
  | .str _ => 0

/-- Specification-side composite ranking key: rating first, then count. -/
def specKey (c : Competitor) : ℚ × ℤ := (ratingQ c, c.rating_count)

/-- Strict lexicographic order on specification-side keys. -/
def lexLtQB (p q : ℚ × ℤ) : Bool :=
  decide (p.1 < q.1) || (p.1 == q.1 && decide (p.2 < q.2))

/-- Specification-side ranking relation: `a` may come before `b` exactly
when the key of `a` is not strictly below the key of `b`; insertion sort
with this relation is the stable descending sort by the composite key. -/
def descRel (a b : Competitor) : Prop :=
  lexLtQB (specKey a) (specKey b) = false

instance : DecidableRel descRel :=
  fun a b => inferInstanceAs (Decidable (lexLtQB (specKey a) (specKey b) = false))

/-!
Network fetch operations.  A request outcome is either a raised exception
(transport error, timeout, or a body that fails to parse as JSON) or a
response with a status code and a parsed body.
-/

/-- Outcome of one `requests.get` call (plus `.json()` parsing). -/
inductive ReqOutcome (β : Type) where
  | exc : ReqOutcome β
  | resp (status : ℕ) (body : β) : ReqOutcome β
deriving DecidableEq

/-- The function `search_app_store` (`research_dual_camera_apps.py`,
lines 10 to 26): an exception is caught and logged, a non-200 status is
ignored; both paths fall through to `return None`. -/
def search_app_store {β : Type} (o : ReqOutcome β) : Option β :=
  match o with
  | .exc => none
  | .resp s b => if s = 200 then some b else none

/-- The function `get_app_details` (lines 28 to 37): same shape. -/
def get_app_details {β : Type} (o : ReqOutcome β) : Option β :=
  match o with
  | .exc => none
  | .resp s b => if s = 200 then some b else none

/-- The function `search_reddit` (lines 39 to 55): same shape. -/
def search_reddit {β : Type} (o : ReqOutcome β) : Option β :=
  match o with
  | .exc => none
  | .resp s b => if s = 200 then some b else none

/-- Value of `data.get("feed", \x7b\x7d).get("entry", [])` in `get_app_reviews`
(`detailed_feature_research.py`, line 18): a list of entries, a single
entry object, or some other JSON value (absent key gives the empty
list). -/
inductive EntryField where
  | elist (l : List RawReview)
  | edict (e : RawReview)
  | eother
deriving DecidableEq

/-- Lines 19 to 22: `extend` for a list, `append` for a single object,
nothing for any other shape. -/
def entriesOf : EntryField → List RawReview
  | .elist l => l
  | .edict e => [e]
  | .eother => []

/-- The page loop of `get_app_reviews` (lines 13 to 23) with accumulator
`all_reviews`: an exception ends the loop (the surrounding `try` catches it
and the function returns the entries accumulated so far); a non-200 page is
skipped. -/
def getReviewsLoop (acc : List RawReview) : List (ReqOutcome EntryField) → List RawReview
  | [] => acc
  | .exc :: _ => acc
  | .resp s b :: rest =>
    getReviewsLoop (if s = 200 then acc ++ entriesOf b else acc) rest

/-- The function `get_app_reviews` (lines 9 to 26), over the outcomes of
the page requests it issues. -/
def get_app_reviews (pages : List (ReqOutcome EntryField)) : List RawReview :=
  getReviewsLoop [] pages

/-- Specification-side description of one page: the entries a page
contributes (nothing for an exception or a non-200 status). -/
def pageData : ReqOutcome EntryField → List RawReview
  | .exc => []
  | .resp s b => if s = 200 then entriesOf b else []

/-- Whether a page outcome is not an exception. -/
def notExc : ReqOutcome EntryField → Bool
  | .exc => false
  | .resp _ _ => true

/-!
Enricher pipeline (`detailed_feature_research.py`, `main`, lines 209 to
264), modelled from the loaded document onwards: the document as loaded,
the fetched review entries, and the four static taxonomy values are inputs.
The taxonomy values returned by `identify_standard_features_2025`,
`identify_innovative_features_2025`, `research_pricing_models` and
`research_ui_trends_2025` are hand-authored constant data of an arbitrary
JSON shape; they are abstracted as values of a type parameter `ι`, and the
core fields of the target app record as a type parameter `κ`, since the
frame claim about `main` does not depend on their contents.
-/

/-- The `review_analysis` record written at lines 254 to 259. -/
structure ReviewAnalysis where
  total_reviews_analyzed : ℕ
  complaints : List CEntry
  feature_requests : List FEntry
  positive_mentions : List PEntry
deriving DecidableEq

/-- The target app record: its core fields (abstracted) and the
`review_analysis` key the enricher adds. -/
structure MixcamRecord (κ : Type) where
  core : κ
  review_analysis : Option ReviewAnalysis
deriving DecidableEq

/-- The `market_insights` mapping, in the field order of lines 62 to 68. -/
structure MarketInsights (ι : Type) where
  standard_features : ι
  innovative_features : ι
  user_complaints : ι
  pricing_models : ι
  ui_trends : ι
deriving DecidableEq

/-- The research document written by the collector and loaded by the
enricher. -/
structure ResearchDoc (κ ι : Type) where
  research_date : String
  mixcam : MixcamRecord κ
  competitors : List Competitor
  market_insights : MarketInsights ι
deriving DecidableEq

/-- The enricher transformation (lines 222 to 259): classify the fetched
reviews, check the names of the first five competitors (line 233 reads
`competitor["name"]` with `in`, which raises when the name is `None`),
write the four taxonomy keys and the `review_analysis` record.  `none`
models an exception before the document is written back. -/
def enrich {κ ι : Type} (std innov pricing ui : ι) (d : ResearchDoc κ ι)
    (reviews : List RawReview) : Option (ResearchDoc κ ι) :=
  match analyze_reviews reviews with
  | none => none
  | some (cs, fs, ps) =>
    if (d.competitors.take 5).all (fun c => c.name.isSome) then
      some
        { research_date := d.research_date
          mixcam :=
            { core := d.mixcam.core
              review_analysis :=
                some { total_reviews_analyzed := reviews.length
                       complaints := cs.take 10
                       feature_requests := fs.take 10
                       positive_mentions := ps.take 10 } }
          competitors := d.competitors
          market_insights :=
            { standard_features := std
              innovative_features := innov
              user_complaints := d.market_insights.user_complaints
              pricing_models := pricing
              ui_trends := ui } }
    else none

/-!
Concrete inputs used by the counterexample and witness theorems below.
-/

/-- Raw app whose `averageUserRating` key is absent. -/
def rawNA : RawApp :=
  { trackId := some 5, trackName := some "CamX", artistName := none,
    formattedPrice := none, averageUserRating := none, userRatingCount := some 7,
    version := none, description := none, genres := none }

/-- Raw app with a numeric rating. -/
def rawR : RawApp :=
  { trackId := some 6, trackName := some "CamY", artistName := none,
    formattedPrice := none, averageUserRating := some 4, userRatingCount := some 50,
    version := none, description := none, genres := none }

/-- Raw app whose numeric identifier is the falsy value 0. -/
def raw0 : RawApp :=
  { trackId := some 0, trackName := some "ZeroApp", artistName := none,
    formattedPrice := none, averageUserRating := some 5, userRatingCount := some 3,
    version := none, description := none, genres := none }

/-- Raw app repeating the identifier of `rawNA`. -/
def rawDup : RawApp :=
  { trackId := some 5, trackName := some "CamX again", artistName := none,
    formattedPrice := none, averageUserRating := some 3, userRatingCount := some 9,
    version := none, description := none, genres := none }

/-- Competitors with numeric ratings (for the ranking claims). -/
def compA : Competitor :=
  { name := some "A", developer := none, price := "N/A", rating := .num 4,
    rating_count := 100, version := "N/A", description_snippet := "", categories := [] }

def compB : Competitor :=
  { name := some "B", developer := none, price := "N/A", rating := .num 5,
    rating_count := 50, version := "N/A", description_snippet := "", categories := [] }

def compC : Competitor :=
  { name := some "C", developer := none, price := "N/A", rating := .num 5,
    rating_count := 200, version := "N/A", description_snippet := "", categories := [] }

def c4list : List Competitor := [compA, compB, compC]

/-- A 500-character content field containing uppercase letters. -/
def longContent : String := String.mk (List.replicate 500 'A')

/-- The lowercased truncation the code actually stores for `longContent`. -/
def lowContent200 : String := String.mk (List.replicate 200 'a')

def c3rev : RawReview :=
  { content := some (some longContent), title := none, im_rating := some (some "1") }

/-- Review whose rating label is present but not an integer literal. -/
def badReview : RawReview :=
  { content := none, title := none, im_rating := some (some "abc") }

/-- Review with every field missing. -/
def emptyReview : RawReview :=
  { content := none, title := none, im_rating := none }

def c6rev : RawReview :=
  { content := some (some "bad"), title := some (some "Bad"), im_rating := some (some "2") }

def c7rev : RawReview :=
  { content := some (some "love it"), title := none, im_rating := some (some "5") }

def c8rev : RawReview :=
  { content := some (some "wish it had zoom"), title := none, im_rating := some (some "5") }

/-- A loaded research document over `κ = ℕ`, `ι = ℕ`. -/
def d0 : ResearchDoc ℕ ℕ :=
  { research_date := "October 24, 2025", mixcam := { core := 0, review_analysis := none },
    competitors := [], market_insights :=
      { standard_features := 0, innovative_features := 0, user_complaints := 0,
        pricing_models := 0, ui_trends := 0 } }

/-- The empty review analysis produced from zero reviews. -/
def raEmpty : ReviewAnalysis :=
  { total_reviews_analyzed := 0, complaints := [], feature_requests := [],
    positive_mentions := [] }

/-- The document `enrich 1 2 3 4 d0 []` produces. -/
def d1 : ResearchDoc ℕ ℕ :=
  { research_date := "October 24, 2025",
    mixcam := { core := 0, review_analysis := some raEmpty },
    competitors := [], market_insights :=
      { standard_features := 1, innovative_features := 2, user_complaints := 0,
        pricing_models := 3, ui_trends := 4 } }

/-- Page outcomes: one good page, one non-200 page, one exception, one good
page after the exception. -/
def pagesEx : List (ReqOutcome EntryField) :=
  [ReqOutcome.resp 200 (EntryField.elist [c6rev]),
   ReqOutcome.resp 404 (EntryField.elist [c7rev]),
   ReqOutcome.exc,
   ReqOutcome.resp 200 (EntryField.elist [c8rev])]


/-- Step results computed for the concrete reviews above. -/
def c6res : StepResult :=
  { complaint := some { rating := 2, title := "Bad", snippet := "bad" },
    featureReq := none, positive := none }

def c7res : StepResult :=
  { complaint := none, featureReq := none,
    positive := some { rating := 5, text := "love it" } }

def c8res : StepResult :=
  { complaint := none, featureReq := some { rating := 5, text := "wish it had zoom" },
    positive := none }

def c3res : StepResult :=
  { complaint := some { rating := 1, title := "", snippet := lowContent200 },
    featureReq := none, positive := none }

/-- Shape of a successful classification step, given that the rating label
parses to `v`. -/
theorem analyzeStep_eq (r : RawReview) (v : ℤ) (hv : ratingOf r = some v) :
    analyzeStep r = some
      { complaint :=
          if v ≤ 3 then
            some { rating := v, title := labelOr "" r.title,
                   snippet := pySlice (contentOf r) 200 }
          else none
        featureReq :=
          if containsAny (fullTextOf r) feature_keywords then
            some { rating := v, text := pySlice (contentOf r) 200 }
          else none
        positive :=
          if 4 ≤ v then
            if containsAny (fullTextOf r) positive_keywords then
              some { rating := v, text := pySlice (contentOf r) 200 }
            else none
          else none } := by
  unfold analyzeStep
  rw [hv]

/-- Claim C2, as stated, is false: a review whose rating label is present
but not an integer literal makes `analyze_reviews` raise a `ValueError`
instead of defaulting the rating to 0 and classifying the record. -/
theorem claim_C2_counterexample :
    badReview.im_rating = some (some "abc") ∧ analyzeStep badReview = none ∧
    analyze_reviews [badReview] = none :=
  ⟨rfl, by decide, by decide⟩

/-- Claim C2 (amended): the review classifier is total on every review
whose rating label parses as an integer; missing fields default to empty
text and, for a missing rating field, to rating 0, and the record is still
classified.  A present rating label that does not parse as an integer
raises an error instead. -/
theorem claim_C2_total (r : RawReview) (v : ℤ) (hv : ratingOf r = some v) :
    (analyzeStep r).isSome = true ∧ (r.im_rating = none → v = 0) := by
  constructor
  · rw [analyzeStep_eq r v hv]
    rfl
  · intro h0
    have h00 : ratingOf r = some 0 := by
      unfold ratingOf
      rw [h0]
      decide
    exact (Option.some.inj (h00.symm.trans hv)).symm

/-- Witness for `claim_C2_total`: the fully empty review is classified,
with rating defaulting to 0. -/
theorem claim_C2_total_witness : (analyzeStep emptyReview).isSome = true :=
  (claim_C2_total emptyReview 0 (by decide)).1

set_option maxRecDepth 40000 in
/-- Claim C3, as stated, is false: for a 500-character content field
containing uppercase letters, the stored snippet is not the first 200
characters of that content but of its lowercased form. -/
theorem claim_C3_counterexample :
    c3rev.content = some (some longContent) ∧ longContent.length = 500 ∧
    analyzeStep c3rev = some c3res ∧
    c3res.complaint = some { rating := 1, title := "", snippet := lowContent200 } ∧
    lowContent200 ≠ pySlice longContent 200 :=
  ⟨rfl, by decide, by decide, rfl, by decide⟩

/-- Claim C3 (amended): every bucket record stores, as its snippet or text
field, exactly the first 200 characters of the lowercased content field. -/
theorem claim_C3_snippets (r : RawReview) (s : String) (res : StepResult)
    (hc : r.content = some (some s)) (hres : analyzeStep r = some res) :
    (∀ e, res.complaint = some e → e.snippet = pySlice (pyLower s) 200) ∧
    (∀ e, res.featureReq = some e → e.text = pySlice (pyLower s) 200) ∧
    (∀ e, res.positive = some e → e.text = pySlice (pyLower s) 200) := by
  rcases hq : ratingOf r with _ | v
  · rw [analyzeStep] at hres
    rw [hq] at hres
    exact absurd hres (by simp)
  · obtain rfl := Option.some.inj ((analyzeStep_eq r v hq).symm.trans hres)
    have hcc : contentOf r = pyLower s := by
      unfold contentOf
      rw [hc]
      rfl
    refine ⟨?_, ?_, ?_⟩ <;> intro e he <;> simp only at he
    · split at he
      · obtain rfl := (Option.some.inj he).symm
        simp [hcc]
      · exact absurd he (by simp)
    · split at he
      · obtain rfl := (Option.some.inj he).symm
        simp [hcc]
      · exact absurd he (by simp)
    · split at he
      · split at he
        · obtain rfl := (Option.some.inj he).symm
          simp [hcc]
        · exact absurd he (by simp)
      · exact absurd he (by simp)

set_option maxRecDepth 40000 in
/-- Witness for `claim_C3_snippets` at the 500-character review. -/
theorem claim_C3_snippets_witness :
    analyzeStep c3rev = some c3res ∧ lowContent200 = pySlice (pyLower longContent) 200 := by
  refine ⟨by decide, ?_⟩
  have h := claim_C3_snippets c3rev longContent c3res rfl (by decide)
  exact h.1 { rating := 1, title := "", snippet := lowContent200 } rfl

/-- Claim C6 (confirmed): a classified review lands in the complaints
bucket exactly when its parsed rating is at most 3, regardless of the
title and content text. -/
theorem claim_C6_complaints (r : RawReview) (v : ℤ) (res : StepResult)
    (hv : ratingOf r = some v) (hres : analyzeStep r = some res) :
    res.complaint.isSome = true ↔ v ≤ 3 := by
  obtain rfl := Option.some.inj ((analyzeStep_eq r v hv).symm.trans hres)
  by_cases h3 : v ≤ 3 <;> simp [h3]

/-- Witness for `claim_C6_complaints`: a rating-2 review is a complaint. -/
theorem claim_C6_complaints_witness :
    analyzeStep c6rev = some c6res ∧ c6res.complaint.isSome = true := by
  refine ⟨by decide, ?_⟩
  exact (claim_C6_complaints c6rev 2 c6res (by decide) (by decide)).mpr (by decide)

/-- Claim C7 (confirmed): a classified review lands in the positive
mentions bucket exactly when its parsed rating is at least 4 and the
lowercased title-and-content text contains a positive keyword. -/
theorem claim_C7_positive (r : RawReview) (v : ℤ) (res : StepResult)
    (hv : ratingOf r = some v) (hres : analyzeStep r = some res) :
    res.positive.isSome = true ↔
      (4 ≤ v ∧ containsAny (fullTextOf r) positive_keywords = true) := by
  obtain rfl := Option.some.inj ((analyzeStep_eq r v hv).symm.trans hres)
  by_cases h4 : 4 ≤ v <;>
    by_cases hk : containsAny (fullTextOf r) positive_keywords = true <;>
      simp [h4, hk]

/-- Witness for `claim_C7_positive`: a rating-5 review containing `love`
is a positive mention. -/
theorem claim_C7_positive_witness :
    analyzeStep c7rev = some c7res ∧ c7res.positive.isSome = true := by
  refine ⟨by decide, ?_⟩
  exact (claim_C7_positive c7rev 5 c7res (by decide) (by decide)).mpr (by decide)

/-- Claim C8 (confirmed): a classified review lands in the feature
requests bucket exactly when the lowercased title-and-content text
contains a feature keyword; in particular a text containing `wish` always
does, whatever the rating. -/
theorem claim_C8_features (r : RawReview) (v : ℤ) (res : StepResult)
    (hv : ratingOf r = some v) (hres : analyzeStep r = some res) :
    (res.featureReq.isSome = true ↔ containsAny (fullTextOf r) feature_keywords = true) ∧
    (strContains (fullTextOf r) "wish" = true → res.featureReq.isSome = true) := by
  obtain rfl := Option.some.inj ((analyzeStep_eq r v hv).symm.trans hres)
  constructor
  · by_cases hk : containsAny (fullTextOf r) feature_keywords = true <;> simp [hk]
  · intro hw
    have hk : containsAny (fullTextOf r) feature_keywords = true := by
      unfold containsAny
      rw [List.any_eq_true]
      exact ⟨"wish", by simp [feature_keywords], hw⟩
    simp [hk]

/-- Witness for `claim_C8_features`: a review containing `wish` is a
feature request. -/
theorem claim_C8_features_witness :
    analyzeStep c8rev = some c8res ∧ c8res.featureReq.isSome = true := by
  refine ⟨by decide, ?_⟩
  exact (claim_C8_features c8rev 5 c8res (by decide) (by decide)).2 (by decide)

/-- The collection loop produces exactly the records built from the raw
apps that survive the seen-set guard. -/
theorem collectLoop_eq_keptRaws :
    ∀ (raws : List RawApp) (seen : List ℤ),
      collectLoop seen raws = (keptRaws seen raws).map buildCompetitor := by
  intro raws
  induction raws with
  | nil => intro seen; rfl
  | cons a rest ih =>
    intro seen
    rcases ha : a.trackId with _ | i <;> simp only [collectLoop, keptRaws, ha]
    · exact ih seen
    · by_cases hcond : i ≠ 0 ∧ i ∉ seen
      · rw [if_pos hcond, if_pos hcond, List.map_cons, ih (i :: seen)]
      · rw [if_neg hcond, if_neg hcond]
        exact ih seen

/-- Identifiers already in the seen set never reappear among the kept
raw apps. -/
theorem keptRaws_filter_seen (i : ℤ) :
    ∀ (raws : List RawApp) (seen : List ℤ), i ∈ seen →
      (keptRaws seen raws).filter (fun x => x.trackId == some i) = [] := by
  intro raws
  induction raws with
  | nil => intro seen _; rfl
  | cons a rest ih =>
    intro seen hi
    rcases ha : a.trackId with _ | j <;> simp only [keptRaws, ha]
    · exact ih seen hi
    · by_cases hcond : j ≠ 0 ∧ j ∉ seen
      · rw [if_pos hcond]
        have hji : (a.trackId == some i) = false := by
          rw [ha]
          simp
          exact fun h => hcond.2 (h ▸ hi)
        rw [List.filter_cons, hji]
        simp only [Bool.false_eq_true, if_false]
        exact ih (j :: seen) (List.mem_cons_of_mem _ hi)
      · rw [if_neg hcond]
        exact ih seen hi

/-- For a nonzero identifier not yet seen, the kept raw apps with that
identifier are exactly the first raw result carrying it. -/
theorem keptRaws_filter_first (i : ℤ) (hi : i ≠ 0) :
    ∀ (raws : List RawApp) (seen : List ℤ) (a : RawApp), i ∉ seen →
      raws.find? (fun x => x.trackId == some i) = some a →
      (keptRaws seen raws).filter (fun x => x.trackId == some i) = [a] := by
  intro raws
  induction raws with
  | nil => intro seen a _ hf; exact absurd hf (by simp)
  | cons b rest ih =>
    intro seen a hseen hf
    rcases hb : b.trackId with _ | j
    · have hpb : (b.trackId == some i) = false := by rw [hb]; rfl
      rw [List.find?_cons, hpb] at hf
      simp only [keptRaws, hb]
      exact ih seen a hseen hf
    · by_cases hji : j = i
      · subst hji
        have hpb : (b.trackId == some j) = true := by rw [hb]; simp
        rw [List.find?_cons, hpb] at hf
        have hba : b = a := Option.some.inj hf
        subst hba
        simp only [keptRaws, hb]
        rw [if_pos ⟨hi, hseen⟩, List.filter_cons, hpb]
        simp only [if_true]
        rw [keptRaws_filter_seen j rest (j :: seen) (List.mem_cons_self j seen)]
      · have hpb : (b.trackId == some i) = false := by
          rw [hb]
          simp
          exact hji
        rw [List.find?_cons, hpb] at hf
        simp only [keptRaws, hb]
        by_cases hcond : j ≠ 0 ∧ j ∉ seen
        · rw [if_pos hcond, List.filter_cons, hpb]
          simp only [Bool.false_eq_true, if_false]
          refine ih (j :: seen) a ?_ hf
          rw [List.mem_cons]
          rintro (rfl | hx)
          · exact hji rfl
          · exact hseen hx
        · rw [if_neg hcond]
          exact ih seen a hseen hf

/-- The identifiers of the kept raw apps are distinct and avoid the seen
set. -/
theorem keptRaws_ids_nodup :
    ∀ (raws : List RawApp) (seen : List ℤ),
      ((keptRaws seen raws).filterMap RawApp.trackId).Nodup ∧
      ∀ j ∈ seen, j ∉ (keptRaws seen raws).filterMap RawApp.trackId := by
  intro raws
  induction raws with
  | nil => intro seen; exact ⟨List.nodup_nil, by simp [keptRaws]⟩
  | cons a rest ih =>
    intro seen
    rcases ha : a.trackId with _ | j
    · simpa only [keptRaws, ha] using ih seen
    · by_cases hcond : j ≠ 0 ∧ j ∉ seen
      · simp only [keptRaws, ha, if_pos hcond]
        have hfm : (a :: keptRaws (j :: seen) rest).filterMap RawApp.trackId
            = j :: (keptRaws (j :: seen) rest).filterMap RawApp.trackId := by
          rw [List.filterMap_cons, ha]
        rw [hfm]
        obtain ⟨hnd, hmem⟩ := ih (j :: seen)
        constructor
        · exact List.nodup_cons.mpr ⟨hmem j (List.mem_cons_self j seen), hnd⟩
        · intro x hx
          rw [List.mem_cons]
          rintro (rfl | hxx)
          · exact hcond.2 hx
          · exact hmem x (List.mem_cons_of_mem _ hx) hxx
      · simp only [keptRaws, ha, if_neg hcond]
        obtain ⟨hnd, hmem⟩ := ih seen
        exact ⟨hnd, fun x hx => hmem x hx⟩

/-- Claim C5, as stated, is false: a raw result whose numeric identifier
is 0 is dropped by the truthiness guard `if app_id and ...`, so the
collected list has no entry for that identifier at all, rather than one
entry built from its first occurrence. -/
theorem claim_C5_counterexample :
    raw0.trackId = some 0 ∧ collectLoop [] [raw0] = [] :=
  ⟨rfl, by decide⟩

/-- Claim C5 (amended): for every nonzero identifier occurring among the
raw results, the collected competitors list contains exactly one entry,
built from the first raw result carrying that identifier; later records
with the same identifier are dropped silently, and the kept identifiers
are pairwise distinct.  Records with identifier 0 or with no identifier
are dropped entirely. -/
theorem claim_C5_dedup :
    (∀ raws : List RawApp,
      collectLoop [] raws = (keptRaws [] raws).map buildCompetitor) ∧
    (∀ raws : List RawApp, ((keptRaws [] raws).filterMap RawApp.trackId).Nodup) ∧
    (∀ (raws : List RawApp) (i : ℤ) (a : RawApp), i ≠ 0 →
      raws.find? (fun x => x.trackId == some i) = some a →
      (keptRaws [] raws).filter (fun x => x.trackId == some i) = [a]) :=
  ⟨fun raws => collectLoop_eq_keptRaws raws [],
   fun raws => (keptRaws_ids_nodup raws []).1,
   fun raws i a hi hf => keptRaws_filter_first i hi raws [] a (by simp) hf⟩

/-- Witness for `claim_C5_dedup`: identifier 5 appears twice; exactly the
first record survives. -/
theorem claim_C5_dedup_witness :
    collectLoop [] [rawNA, rawDup, rawR]
      = (keptRaws [] [rawNA, rawDup, rawR]).map buildCompetitor ∧
    (keptRaws [] [rawNA, rawDup, rawR]).filter (fun x => x.trackId == some 5)
      = [rawNA] :=
  ⟨claim_C5_dedup.1 _, claim_C5_dedup.2.2 [rawNA, rawDup, rawR] 5 rawNA (by decide) (by decide)⟩

/-- A competitor with a numeric-rating flag set carries a numeric rating. -/
theorem ratingIsNum_num (c : Competitor) (h : ratingIsNum c = true) :
    ∃ q, c.rating = PyVal.num q := by
  rcases hc : c.rating with q | s
  · exact ⟨q, rfl⟩
  · rw [ratingIsNum, hc] at h
    exact absurd h (by simp)

/-- Comparison of two sort keys whose ratings have the same kind is
defined. -/
theorem pyLtKey_defined (c d : Competitor)
    (h : ratingIsNum c = ratingIsNum d) :
    (pyLtKey (sortKeyOf c) (sortKeyOf d)).isSome = true := by
  rcases hc : c.rating with q | s <;> rcases hd : d.rating with q2 | s2 <;>
    simp only [ratingIsNum, hc, hd] at h <;>
    simp only [pyLtKey, sortKeyOf, pyEqV, pyLtV, hc, hd] <;>
    first
      | (split <;> rfl)
      | exact absurd h (by simp)

/-- Comparison of two sort keys whose ratings have different kinds is the
undefined comparison of a number with a string. -/
theorem pyLtKey_cross_none (c d : Competitor)
    (h : ratingIsNum c ≠ ratingIsNum d) :
    pyLtKey (sortKeyOf c) (sortKeyOf d) = none := by
  rcases hc : c.rating with q | s <;> rcases hd : d.rating with q2 | s2 <;>
    simp only [ratingIsNum, hc, hd] at h <;>
    first
      | exact absurd rfl h
      | (simp only [pyLtKey, sortKeyOf, pyEqV, pyLtV, hc, hd]; rfl)

/-- Inserting into a kind-homogeneous sorted list succeeds and preserves
the kind and the length. -/
theorem insertDesc_defined (k : Bool) (a : Competitor) :
    ∀ l : List Competitor, ratingIsNum a = k → (∀ c ∈ l, ratingIsNum c = k) →
      ∃ l', insertDesc a l = some l' ∧ l'.length = l.length + 1 ∧
        ∀ c ∈ l', ratingIsNum c = k := by
  intro l
  induction l with
  | nil =>
    intro ha _
    exact ⟨[a], rfl, rfl, by simpa using ha⟩
  | cons b t ih =>
    intro ha hl
    have hbd := pyLtKey_defined a b
      (ha.trans (hl b (List.mem_cons_self b t)).symm)
    rcases hx : pyLtKey (sortKeyOf a) (sortKeyOf b) with _ | bv
    · rw [hx] at hbd
      exact absurd hbd (by simp)
    · cases bv
      · refine ⟨a :: b :: t, ?_, by simp, ?_⟩
        · simp [insertDesc, hx]
        · intro c hc
          rcases List.mem_cons.mp hc with rfl | hc2
          · exact ha
          · exact hl c hc2
      · obtain ⟨l2, h1, h2, h3⟩ :=
          ih ha (fun c hc => hl c (List.mem_cons_of_mem _ hc))
        refine ⟨b :: l2, ?_, by simp [h2], ?_⟩
        · simp [insertDesc, hx, h1]
        · intro c hc
          rcases List.mem_cons.mp hc with rfl | hc2
          · exact hl _ (List.mem_cons_self _ _)
          · exact h3 c hc2

/-- Sorting a kind-homogeneous list succeeds and preserves the kind and
the length. -/
theorem pySortDesc_defined (k : Bool) :
    ∀ l : List Competitor, (∀ c ∈ l, ratingIsNum c = k) →
      ∃ l', pySortDesc l = some l' ∧ l'.length = l.length ∧
        ∀ c ∈ l', ratingIsNum c = k := by
  intro l
  induction l with
  | nil => intro _; exact ⟨[], rfl, rfl, by simp⟩
  | cons a rest ih =>
    intro hl
    obtain ⟨l1, h1, h2, h3⟩ := ih (fun c hc => hl c (List.mem_cons_of_mem _ hc))
    obtain ⟨l2, g1, g2, g3⟩ :=
      insertDesc_defined k a l1 (hl a (List.mem_cons_self a rest)) h3
    refine ⟨l2, ?_, by rw [g2, h2]; rfl, g3⟩
    simp only [pySortDesc, h1]
    exact g1

/-- Sorting any list that mixes a numeric and a string rating reaches an
undefined comparison: the modelled `TypeError` of `sorted`. -/
theorem pySortDesc_mixed_none :
    ∀ cs : List Competitor, (∃ c ∈ cs, ratingIsNum c = true) →
      (∃ c ∈ cs, ratingIsNum c = false) → pySortDesc cs = none := by
  intro cs
  induction cs with
  | nil =>
    rintro ⟨c, hc, _⟩ _
    exact absurd hc (List.not_mem_nil c)
  | cons a rest ih =>
    rintro ⟨ct, hct, hkt⟩ ⟨cf, hcf, hkf⟩
    by_cases hhom : ∀ c ∈ rest, ratingIsNum c = ratingIsNum a
    · have hta : ratingIsNum ct = ratingIsNum a := by
        rcases List.mem_cons.mp hct with rfl | h
        · rfl
        · exact hhom _ h
      have hfa : ratingIsNum cf = ratingIsNum a := by
        rcases List.mem_cons.mp hcf with rfl | h
        · rfl
        · exact hhom _ h
      rw [hkt] at hta
      rw [hkf] at hfa
      exact absurd (hfa.trans hta.symm) (by simp)
    · push_neg at hhom
      obtain ⟨b, hb, hne⟩ := hhom
      by_cases hhom2 : ∀ c ∈ rest, ratingIsNum c = ratingIsNum b
      · obtain ⟨l1, hsort, hlen, hmem⟩ :=
          pySortDesc_defined (ratingIsNum b) rest hhom2
        rcases l1 with _ | ⟨c, t⟩
        · have h0 : rest.length = 0 := by rw [← hlen]; rfl
          exact absurd (List.length_eq_zero.mp h0) (List.ne_nil_of_mem hb)
        · have hcapp : ratingIsNum a ≠ ratingIsNum c := by
            rw [hmem c (List.mem_cons_self c t)]
            exact fun h => hne h.symm
          simp only [pySortDesc, hsort]
          simp [insertDesc, pyLtKey_cross_none a c hcapp]
      · push_neg at hhom2
        obtain ⟨d, hd, hne2⟩ := hhom2
        have hrest : pySortDesc rest = none := by
          rcases hkb : ratingIsNum b with _ | _ <;>
            rcases hkd : ratingIsNum d with _ | _
          · exact absurd (hkd.trans hkb.symm) hne2
          · exact ih ⟨d, hd, hkd⟩ ⟨b, hb, hkb⟩
          · exact ih ⟨b, hb, hkb⟩ ⟨d, hd, hkd⟩
          · exact absurd (hkd.trans hkb.symm) hne2
        simp only [pySortDesc, hrest]

/-- Claim C1, as stated, is false: a record built from a raw app with no
`averageUserRating` carries the string `N/A` as the rating component of
its sort key (not the number 0), and sorting it together with a
numerically rated record is undefined (the comparison of the key tuples
raises a `TypeError`), instead of being defined for every mix. -/
theorem claim_C1_counterexample :
    (sortKeyOf (buildCompetitor rawNA)).1 ≠ PyVal.num 0 ∧
    pySortDesc [buildCompetitor rawNA, buildCompetitor rawR] = none :=
  ⟨by decide, by decide⟩

/-- Claim C1 (amended): a record whose `averageUserRating` is absent
stores the string `N/A` as its rating (the numeric default 0 of the sort
key function applies only to records lacking the `rating` key, which
records built by the collector never do), and the ranking sort is
undefined whenever rated and unrated records are mixed. -/
theorem claim_C1_default :
    (∀ a : RawApp, a.averageUserRating = none →
      (buildCompetitor a).rating = PyVal.str "N/A") ∧
    (∀ cs : List Competitor, (∃ c ∈ cs, ratingIsNum c = true) →
      (∃ c ∈ cs, ratingIsNum c = false) → pySortDesc cs = none) := by
  constructor
  · intro a ha
    unfold buildCompetitor
    rw [ha]
  · exact pySortDesc_mixed_none

/-- Witness for `claim_C1_default`. -/
theorem claim_C1_default_witness :
    (buildCompetitor rawNA).rating = PyVal.str "N/A" ∧
    pySortDesc [buildCompetitor rawR, buildCompetitor rawNA] = none :=
  ⟨claim_C1_default.1 rawNA rfl,
   claim_C1_default.2 [buildCompetitor rawR, buildCompetitor rawNA]
     (by decide) (by decide)⟩

/-- On two numeric ratings, the Python comparison of the key tuples
computes exactly the strict lexicographic order on the
specification-side keys. -/
theorem pyLtKey_num (c d : Competitor) (qc qd : ℚ)
    (hc : c.rating = PyVal.num qc) (hd : d.rating = PyVal.num qd) :
    pyLtKey (sortKeyOf c) (sortKeyOf d)
      = some (lexLtQB (specKey c) (specKey d)) := by
  simp only [sortKeyOf, pyLtKey, pyEqV, hc, hd, pyLtV, specKey, ratingQ, lexLtQB]
  by_cases hq : (qc == qd) = true
  · rw [if_pos hq]
    have heq : qc = qd := beq_iff_eq.mp hq
    subst heq
    simp
  · rw [if_neg hq]
    rw [Bool.not_eq_true] at hq
    simp [hq]

/-- On numeric ratings, the fallible insertion of the Python sort computes
the `orderedInsert` of the specification-side descending relation. -/
theorem insertDesc_eq_orderedInsert (a : Competitor) :
    ∀ l : List Competitor, ratingIsNum a = true → (∀ c ∈ l, ratingIsNum c = true) →
      insertDesc a l = some (List.orderedInsert descRel a l) := by
  intro l
  induction l with
  | nil => intro _ _; rfl
  | cons b t ih =>
    intro ha hl
    obtain ⟨qa, hqa⟩ := ratingIsNum_num a ha
    obtain ⟨qb, hqb⟩ := ratingIsNum_num b (hl b (List.mem_cons_self b t))
    rcases hlt : lexLtQB (specKey a) (specKey b) with _ | _
    · simp only [insertDesc, pyLtKey_num a b qa qb hqa hqb, hlt]
      rw [List.orderedInsert, if_pos]
      exact hlt
    · simp only [insertDesc, pyLtKey_num a b qa qb hqa hqb, hlt]
      rw [ih ha (fun c hc => hl c (List.mem_cons_of_mem _ hc))]
      rw [List.orderedInsert, if_neg]
      · rfl
      · unfold descRel
        rw [hlt]
        simp

/-- On numeric ratings, the Python sort succeeds and computes the stable
descending insertion sort by the composite specification key. -/
theorem pySortDesc_eq_insertionSort :
    ∀ cs : List Competitor, (∀ c ∈ cs, ratingIsNum c = true) →
      pySortDesc cs = some (List.insertionSort descRel cs) := by
  intro cs
  induction cs with
  | nil => intro _; rfl
  | cons a rest ih =>
    intro hl
    have hrest := ih (fun c hc => hl c (List.mem_cons_of_mem _ hc))
    simp only [pySortDesc, hrest]
    rw [insertDesc_eq_orderedInsert a (List.insertionSort descRel rest)
      (hl a (List.mem_cons_self a rest))
      (fun c hc => hl c (List.mem_cons_of_mem _
        ((List.perm_insertionSort descRel rest).mem_iff.mp hc)))]
    rfl

/-- Claim C4, as stated, is false: for a deduplicated sequence mixing a
numerically rated and an unrated record, the code produces no final list
at all (the sort raises), so the final list does not equal the first 10
elements of the stable descending sort. -/
theorem claim_C4_counterexample :
    finalCompetitors [buildCompetitor rawNA, buildCompetitor rawR] = none ∧
    finalCompetitors [buildCompetitor rawNA, buildCompetitor rawR]
      ≠ some ((List.insertionSort descRel
          [buildCompetitor rawNA, buildCompetitor rawR]).take 10) :=
  ⟨by decide, by decide⟩

/-- Claim C4 (amended): for every deduplicated competitor sequence whose
ratings are all numeric, the final competitors list is exactly the first
10 elements of the stable descending insertion sort by the composite key
(rating first, rating count as tie break, ties keeping insertion
order). -/
theorem claim_C4_ranking (cs : List Competitor)
    (h : ∀ c ∈ cs, ratingIsNum c = true) :
    finalCompetitors cs = some ((List.insertionSort descRel cs).take 10) := by
  unfold finalCompetitors
  rw [pySortDesc_eq_insertionSort cs h]
  rfl

/-- Witness for `claim_C4_ranking`: two records tie on rating 5 and are
ordered by count; a tie on both keys keeps insertion order. -/
theorem claim_C4_ranking_witness :
    finalCompetitors c4list
      = some ((List.insertionSort descRel c4list).take 10) :=
  claim_C4_ranking c4list (by decide)

/-- The review page loop appends exactly the entries of the successful
pages before the first exception. -/
theorem getReviewsLoop_eq :
    ∀ (pages : List (ReqOutcome EntryField)) (acc : List RawReview),
      getReviewsLoop acc pages
        = acc ++ ((pages.takeWhile notExc).map pageData).flatten := by
  intro pages
  induction pages with
  | nil => intro acc; simp [getReviewsLoop]
  | cons o rest ih =>
    intro acc
    rcases o with _ | ⟨s, b⟩
    · simp [getReviewsLoop, notExc]
    · by_cases hs : s = 200 <;>
        simp [getReviewsLoop, notExc, pageData, hs, ih, List.append_assoc]

/-- Claim C9 (confirmed): a transport failure or a non-200 response in any
fetch function yields no data (`None` result, no entries from that page)
without any failure propagating: the fetch functions are total and an
exception inside the review page loop only ends the loop, returning the
entries accumulated from the successful pages before it. -/
theorem claim_C9_fetch :
    (∀ (β : Type) (b : β) (s : ℕ), s ≠ 200 →
      search_app_store (ReqOutcome.resp s b) = none ∧
      get_app_details (ReqOutcome.resp s b) = none ∧
      search_reddit (ReqOutcome.resp s b) = none) ∧
    (∀ β : Type,
      search_app_store (ReqOutcome.exc : ReqOutcome β) = none ∧
      get_app_details (ReqOutcome.exc : ReqOutcome β) = none ∧
      search_reddit (ReqOutcome.exc : ReqOutcome β) = none) ∧
    (∀ pages : List (ReqOutcome EntryField),
      get_app_reviews pages = ((pages.takeWhile notExc).map pageData).flatten) := by
  refine ⟨?_, ?_, ?_⟩
  · intro β b s hs
    refine ⟨?_, ?_, ?_⟩ <;>
      simp [search_app_store, get_app_details, search_reddit, hs]
  · intro β
    exact ⟨rfl, rfl, rfl⟩
  · intro pages
    unfold get_app_reviews
    rw [getReviewsLoop_eq pages []]
    rfl

/-- Witness for `claim_C9_fetch`: a 404 response yields `none`, and a page
list with a failure in the middle contributes only the entries of the
successful pages before it. -/
theorem claim_C9_fetch_witness :
    search_app_store (ReqOutcome.resp 404 (0 : ℕ)) = none ∧
    get_app_reviews pagesEx = [c6rev] := by
  refine ⟨(claim_C9_fetch.1 ℕ 0 404 (by decide)).1, ?_⟩
  rw [claim_C9_fetch.2.2 pagesEx]
  decide

/-- Claim C10 (confirmed): when the enricher transformation completes, it
writes exactly the four taxonomy keys under `market_insights` and the
`review_analysis` field under the target app record, and writes
`research_date`, the target app core fields, the competitors list and
`market_insights.user_complaints` back unchanged. -/
theorem claim_C10_frame (κ ι : Type) (std innov pricing ui : ι)
    (d : ResearchDoc κ ι) (reviews : List RawReview) (d2 : ResearchDoc κ ι)
    (h : enrich std innov pricing ui d reviews = some d2) :
    d2.research_date = d.research_date ∧
    d2.competitors = d.competitors ∧
    d2.mixcam.core = d.mixcam.core ∧
    d2.market_insights.user_complaints = d.market_insights.user_complaints ∧
    d2.market_insights.standard_features = std ∧
    d2.market_insights.innovative_features = innov ∧
    d2.market_insights.pricing_models = pricing ∧
    d2.market_insights.ui_trends = ui ∧
    d2.mixcam.review_analysis.isSome = true := by
  unfold enrich at h
  split at h
  · exact absurd h (by simp)
  · split at h
    · obtain rfl := (Option.some.inj h).symm
      exact ⟨rfl, rfl, rfl, rfl, rfl, rfl, rfl, rfl, rfl⟩
    · exact absurd h (by simp)

/-- Witness for `claim_C10_frame` at a concrete document. -/
theorem claim_C10_frame_witness :
    enrich 1 2 3 4 d0 [] = some d1 ∧
    d1.research_date = d0.research_date ∧
    d1.competitors = d0.competitors ∧
    d1.mixcam.core = d0.mixcam.core ∧
    d1.market_insights.user_complaints = d0.market_insights.user_complaints ∧
    d1.market_insights.standard_features = 1 ∧
    d1.market_insights.innovative_features = 2 ∧
    d1.market_insights.pricing_models = 3 ∧
    d1.market_insights.ui_trends = 4 ∧
    d1.mixcam.review_analysis.isSome = true := by
  have h : enrich 1 2 3 4 d0 [] = some d1 := by decide
  exact ⟨h, claim_C10_frame ℕ ℕ 1 2 3 4 d0 [] d1 h⟩
